import Mathlib

/-!
# Verification of the local per-site database and caching layer

Shallow embedding of the database core of this repository (a Moodle mobile
client): the Eager database-table caching strategy (src/unnamed/part_001,
class CoreEagerDatabaseTable) and the site registry with its schema
registry and migrator (src/unnamed/part_007, class CoreSitesProvider).

The in-memory mirror of an Eager table and the schema maps of the sites
provider are plain JavaScript objects, so the embedding models the
ECMAScript ordinary own-property-key order: keys that are canonical array
indices are enumerated first in ascending numeric order, then the other
string keys in property-creation order.
-/

set_option linter.unusedVariables false

/-- A scalar column value of a database record: text, integer, or null
(serialized JSON blobs are plain text at this layer). -/
inductive DBValue where
  | int (n : Int)
  | text (s : String)
  | null
deriving DecidableEq

/-- JavaScript `String(value)` on a scalar column value. -/
def DBValue.jsString : DBValue → String
  | .int n => toString n
  | .text s => s
  | .null => "null"

/-- A database record: a mapping from column name to scalar value. -/
abbrev DBRecord := List (String × DBValue)

/-- The error taxonomy of the core (class CoreError and its uses):
"No records found." styled NotFound errors, uniqueness violations on
insert, and migration failures (table creation or migration callback
threw). -/
inductive CoreError where
  | notFound (msg : String)
  | uniquenessViolation
  | migrationFailure
deriving DecidableEq

/-! ## JavaScript objects used as string-keyed maps -/

/-- A plain JavaScript object used as a map: the entry list is kept in
property-creation order; assigning to an existing key overwrites its value
in place (the key keeps its original position). -/
structure JSObject (α : Type) where
  entries : List (String × α)
deriving DecidableEq

/-- Property assignment `obj[k] = v`: overwrite in place if the key
exists, otherwise append a new property. -/
def jsSetEntries (k : String) (v : α) : List (String × α) → List (String × α)
  | [] => [(k, v)]
  | e :: es => if e.1 = k then (k, v) :: es else e :: jsSetEntries k v es

/-- `obj[k] = v`. -/
def JSObject.set (o : JSObject α) (k : String) (v : α) : JSObject α :=
  ⟨jsSetEntries k v o.entries⟩

/-- Property read `obj[k]`, none when the key is absent. -/
def JSObject.get (o : JSObject α) (k : String) : Option α :=
  o.entries.lookup k

/-- The object literal with exactly one property. -/
def JSObject.single (k : String) (v : α) : JSObject α :=
  ⟨[(k, v)]⟩

/-- Read a decimal digit string (structural recursion, so that concrete
evaluations reduce in the kernel). -/
def digitsToNatAux : List Char → Nat → Option Nat
  | [], acc => some acc
  | c :: cs, acc =>
    if '0' ≤ c ∧ c ≤ '9' then digitsToNatAux cs (acc * 10 + (c.toNat - '0'.toNat))
    else none

/-- Whether a string is a canonical array-index key in the sense of the
ECMAScript specification: the canonical decimal numeral of some n with
n < 2^32 - 1 (the round trip through toString enforces canonicality,
rejecting the empty string and leading zeros). -/
def arrayIndexKey (s : String) : Option Nat :=
  match digitsToNatAux s.data 0 with
  | none => none
  | some n => if toString n = s ∧ n < 4294967295 then some n else none

/-- Insert into a list sorted ascending by the given numeric key. -/
def insertAsc (key : String × α → Nat) (x : String × α) :
    List (String × α) → List (String × α)
  | [] => [x]
  | y :: ys => if key x ≤ key y then x :: y :: ys else y :: insertAsc key x ys

/-- Sort ascending by the given numeric key (insertion sort). -/
def sortAsc (key : String × α → Nat) (xs : List (String × α)) : List (String × α) :=
  xs.foldr (insertAsc key) []

/-- The ECMAScript ordinary own-property-key order of a plain object:
array-index keys first, in ascending numeric order, then the remaining
string keys in property-creation order.  Both `Object.values` and
`for (const k in obj)` enumerate properties in this order. -/
def JSObject.orderedEntries (o : JSObject α) : List (String × α) :=
  sortAsc (fun e => (arrayIndexKey e.1).getD 0)
      (o.entries.filter (fun e => (arrayIndexKey e.1).isSome))
    ++ o.entries.filter (fun e => (arrayIndexKey e.1).isNone)

/-- `Object.values(obj)`. -/
def JSObject.valuesList (o : JSObject α) : List α :=
  o.orderedEntries.map (·.2)

/-! ## The database-table abstraction

The base class CoreDatabaseTable (database-table.ts) and the SQLiteDB
store are not under src/ (only the Eager subclass is); the store-level
operations below are modelled from the spec. -/

/-- Primary key of a record: the tuple of values of the primary-key
columns (CoreDatabaseTable.getPrimaryKeyFromRecord; the base class is not
in src/, behaviour fixed by the spec data model: a record is identified
by a single column or composite tuple of columns). -/
def getPrimaryKeyFromRecord (primaryKeyColumns : List String) (record : DBRecord) :
    List DBValue :=
  primaryKeyColumns.map (fun c => (record.lookup c).getD .null)

/-- Modelled from the spec: CoreDatabaseTable.serializePrimaryKey
(database-table.ts is not under src/). The spec requires a stable,
collision-free string from a primary-key tuple, e.g. columns joined by a
separator; the values are stringified the JavaScript way and joined. -/
def serializePrimaryKey (primaryKey : List DBValue) : String :=
  String.intercalate "-" (primaryKey.map DBValue.jsString)

/-- Modelled from the spec: CoreDatabaseTable.recordMatches
(database-table.ts is not under src/): an exact-match conjunction over
the provided columns. -/
def recordMatches (record : DBRecord) (conditions : List (String × DBValue)) : Bool :=
  conditions.all (fun c => (record.lookup c.1).getD .null == c.2)

/-- Modelled from the spec: the underlying store write performed by
CoreDatabaseTable.insert (database-table.ts and sqlitedb.ts are not under
src/). Per the spec error taxonomy, insert on a duplicate primary key
fails with UniquenessViolation and the row set is unchanged; otherwise
the row is appended. -/
def dbStoreInsert (primaryKeyColumns : List String) (rows : List DBRecord)
    (record : DBRecord) : Except CoreError (List DBRecord) :=
  if rows.any (fun row =>
      getPrimaryKeyFromRecord primaryKeyColumns row
        == getPrimaryKeyFromRecord primaryKeyColumns record) then
    .error .uniquenessViolation
  else
    .ok (rows ++ [record])

/-- State of a CoreEagerDatabaseTable: the backing store rows plus the
in-memory mirror, a plain object keyed by serialized primary key
(src/unnamed/part_001, lines 226-307). -/
structure CoreEagerDatabaseTable where
  primaryKeyColumns : List String
  storeRows : List DBRecord
  records : JSObject DBRecord
deriving DecidableEq

/-- Serialized primary key of a record for this table. -/
def CoreEagerDatabaseTable.skey (t : CoreEagerDatabaseTable) (record : DBRecord) : String :=
  serializePrimaryKey (getPrimaryKeyFromRecord t.primaryKeyColumns record)

/-- A fresh Eager table over an empty store. -/
def CoreEagerDatabaseTable.emptyTable (primaryKeyColumns : List String) :
    CoreEagerDatabaseTable :=
  ⟨primaryKeyColumns, [], ⟨[]⟩⟩

/-- CoreEagerDatabaseTable.insert (part_001 lines 301-307): first awaits
the store write (super.insert); only if it succeeds is the mirror
updated.  When the store write throws, the error propagates and the
table state is untouched. -/
def CoreEagerDatabaseTable.insert (t : CoreEagerDatabaseTable) (record : DBRecord) :
    Option CoreError × CoreEagerDatabaseTable :=
  match dbStoreInsert t.primaryKeyColumns t.storeRows record with
  | .error e => (some e, t)
  | .ok rows =>
    (none, { t with storeRows := rows, records := t.records.set (t.skey record) record })

/-- CoreEagerDatabaseTable.all (part_001 lines 252-258):
`Object.values(this.records)`, optionally filtered by the exact-match
conditions. -/
def CoreEagerDatabaseTable.all (t : CoreEagerDatabaseTable)
    (conditions : Option (List (String × DBValue))) : List DBRecord :=
  match conditions with
  | some conds => t.records.valuesList.filter (fun r => recordMatches r conds)
  | none => t.records.valuesList

/-- CoreEagerDatabaseTable.find (part_001 lines 263-271). -/
def CoreEagerDatabaseTable.find (t : CoreEagerDatabaseTable)
    (conditions : List (String × DBValue)) : Except CoreError DBRecord :=
  match t.records.valuesList.find? (fun r => recordMatches r conditions) with
  | some r => .ok r
  | none => .error (.notFound "No records found.")

/-- CoreEagerDatabaseTable.findByPrimaryKey (part_001 lines 276-284):
mirror lookup by serialized primary key; NotFound when absent. -/
def CoreEagerDatabaseTable.findByPrimaryKey (t : CoreEagerDatabaseTable)
    (primaryKey : List DBValue) : Except CoreError DBRecord :=
  match t.records.get (serializePrimaryKey primaryKey) with
  | some r => .ok r
  | none => .error (.notFound "No records found.")

/-- Row count of the backing store. -/
def CoreEagerDatabaseTable.rowCount (t : CoreEagerDatabaseTable) : Nat :=
  t.storeRows.length

/-- A sequence of inserts, threading the table state (a failed insert
leaves the state unchanged, as in the source). -/
def CoreEagerDatabaseTable.insertList (t : CoreEagerDatabaseTable)
    (rs : List DBRecord) : CoreEagerDatabaseTable :=
  rs.foldl (fun t r => (t.insert r).2) t

/-! ## The sites registry, schema registry and migrator

Embedding of the DB-lifecycle slice of CoreSitesProvider
(src/unnamed/part_007).  Asynchronous store calls that can reject
(createTablesFromSchema, the migration callback) are modelled through an
explicit oracle; `Promise.all` over independently started applications is
modelled as left-to-right sequential execution, which is exact whenever a
single schema is applied. -/

/-- A site schema as registered by feature modules (type CoreSiteSchema /
CoreRegisteredSiteSchema, part_007 lines 1978-2014 and 2056-2063).
`hasTables` and `hasMigrate` record whether the optional `tables` and
`migrate` members are defined; `siteId` is the member added by
registerSiteSchema for onlyCurrentSite schemas. -/
structure CoreSiteSchema where
  name : String
  version : Int
  hasTables : Bool
  tables : List String
  hasMigrate : Bool
  onlyCurrentSite : Bool
  siteId : Option String
deriving DecidableEq

/-- Observable calls a site database receives during schema application. -/
inductive DBAction where
  | createTables (tables : List String)
  | migrateCallback (schemaName : String) (oldVersion : Int) (newVersion : Int)
  | insertVersionRecord (versionName : String) (version : Int)
deriving DecidableEq

/-- A site database, reduced to the reserved schema_versions metadata
table (rows (name, version), name is the primary key) plus the log of the
calls it received. -/
structure SiteDB where
  schemaVersions : List (String × Int)
  log : List DBAction
deriving DecidableEq

/-- Outcome oracle for the external asynchronous calls: whether a
db.createTablesFromSchema call succeeds, and whether a schema migration
callback (identified by schema name and the oldVersion it receives)
succeeds. -/
structure SiteEnv where
  createTablesOk : List String → Bool
  migrateOk : String → Int → Bool

/-- db.createTablesFromSchema on a site database: the call is logged;
the oracle decides whether the returned promise resolves or rejects. -/
def SiteDB.createTablesFromSchema (db : SiteDB) (env : SiteEnv) (tables : List String) :
    Option CoreError × SiteDB :=
  let db' := { db with log := db.log ++ [.createTables tables] }
  if env.createTablesOk tables then (none, db') else (some .migrationFailure, db')

/-- db.insertRecord on the schema_versions table.  SQLiteDB is not under
src/; modelled as an upsert (replace the row with the same primary key),
which is what the src callers require: login() re-inserts the fixed-id
row of the current_site table on every login (part_007 line 1317) and
addSite re-inserts an existing site id (line 879), and the spec says the
schema version record is created or updated by the migrator. -/
def SiteDB.insertVersionRecord (db : SiteDB) (n : String) (v : Int) :
    Option CoreError × SiteDB :=
  let db' :=
    if db.schemaVersions.any (fun r => r.1 == n) then
      { db with
        schemaVersions := db.schemaVersions.map (fun r => if r.1 == n then (n, v) else r),
        log := db.log ++ [.insertVersionRecord n v] }
    else
      { db with
        schemaVersions := db.schemaVersions ++ [(n, v)],
        log := db.log ++ [.insertVersionRecord n v] }
  (none, db')

/-- The bare identifier `name` in applySiteSchema (part_007 line 1782,
`db.insertRecord(SCHEMA_VERSIONS_TABLE, { name, version: schema.version })`)
is not bound in the method or the module; it resolves to the global
`window.name`, which is the empty string by default. -/
def globalWindowName : String := ""

/-- CoreSitesProvider.applySiteSchema (part_007 lines 1771-1783): create
the schema tables if defined, then invoke the migration callback if
defined (it receives the old version; the event also records the version
being migrated to, i.e. schema.version), then insert the installed
version record - under the global `name`, see globalWindowName. -/
def applySiteSchema (env : SiteEnv) (siteId : String) (db : SiteDB)
    (schema : CoreSiteSchema) (oldVersion : Int) : Option CoreError × SiteDB :=
  let (e1, db1) :=
    if schema.hasTables then db.createTablesFromSchema env schema.tables else (none, db)
  match e1 with
  | some e => (some e, db1)
  | none =>
    let (e2, db2) :=
      if schema.hasMigrate then
        let dbc := { db1 with
          log := db1.log ++ [.migrateCallback schema.name oldVersion schema.version] }
        if env.migrateOk schema.name oldVersion then (none, dbc)
        else (some .migrationFailure, dbc)
      else (none, db1)
    match e2 with
    | some e => (some e, db2)
    | none => db2.insertVersionRecord globalWindowName schema.version

/-- The versions map built by applySiteSchemas (part_007 lines 1741-1744):
`records.forEach((record) => versions[record.name] = record.version)`,
later assignments win. -/
def versionsFromRecords (records : List (String × Int)) (n : String) : Option Int :=
  records.foldl (fun m r => fun x => if x = r.1 then some r.2 else m x) (fun _ => none) n

/-- The loop body of applySiteSchemas (part_007 lines 1746-1760): each
schema whose recorded version is not older, or whose siteId member names
a different site, is skipped; the remaining applications are pushed and
awaited with Promise.all, modelled sequentially left to right (the first
rejection is the one Promise.all reports). -/
def applySchemasLoop (env : SiteEnv) (siteId : String)
    (versions : String → Option Int) :
    SiteDB → List (String × CoreSiteSchema) → Option CoreError × SiteDB
  | db, [] => (none, db)
  | db, (n, schema) :: rest =>
    let oldVersion := (versions n).getD 0
    let skip : Bool :=
      decide (oldVersion ≥ schema.version)
        || (match schema.siteId with | some sid => sid != siteId | none => false)
    if skip then
      applySchemasLoop env siteId versions db rest
    else
      let (e1, db1) := applySiteSchema env siteId db schema oldVersion
      let (e2, db2) := applySchemasLoop env siteId versions db1 rest
      (e1 <|> e2, db2)

/-- CoreSitesProvider.applySiteSchemas (part_007 lines 1735-1761):
fetch the installed versions from the schema_versions table, then apply
every supplied schema that is pending for this site.  The `for..in` loop
enumerates the schemas object in JavaScript key order. -/
def applySiteSchemas (env : SiteEnv) (siteId : String) (db : SiteDB)
    (schemas : JSObject CoreSiteSchema) : Option CoreError × SiteDB :=
  applySchemasLoop env siteId (versionsFromRecords db.schemaVersions) db
    schemas.orderedEntries

/-! ## Provider state and site lifecycle -/

/-- The DB-lifecycle slice of the CoreSitesProvider state (part_007 lines
206-213): the current site, the lookup-by-ID map `this.sites` (as the set
of ids it holds), the registered schemas `this.siteSchemas`, the
unversioned table schemas `this.siteTablesSchemas` (as table names), the
persisted sites list (ids in the app-DB sites_2 table), the per-site
databases, and the in-flight migration map `this.siteSchemasMigration`
(site id to promise).  `appSitesReads`, `migrationsStarted` and
`migrated` are observers: how often the persisted sites list was read by
getSite, which migration bodies were started (site id, promise id), and
which sites have a successfully completed migrateSiteSchemas run. -/
structure CoreSitesState where
  currentSite : Option String
  sites : List String
  siteSchemas : JSObject CoreSiteSchema
  siteTablesSchemas : List String
  appSitesTable : List String
  siteDBs : String → SiteDB
  siteSchemasMigration : List (String × Nat)
  nextPromiseId : Nat
  appSitesReads : Nat
  migrationsStarted : List (String × Nat)
  migrated : List String

/-- Replace one site database. -/
def CoreSitesState.setDB (st : CoreSitesState) (siteId : String) (db : SiteDB) :
    CoreSitesState :=
  { st with siteDBs := fun x => if x = siteId then db else st.siteDBs x }

/-- Add an id to the `this.sites` object (a no-op when present). -/
def addIdOnce (ids : List String) (siteId : String) : List String :=
  if siteId ∈ ids then ids else ids ++ [siteId]

/-- The synchronous prefix of CoreSitesProvider.migrateSiteSchemas
(part_007 lines 1710-1726): if a migration for this site is already in
flight, return that promise; otherwise start the migration body, store
its promise in the map and return it.  Returns the state, the promise id
and whether a new migration body was started. -/
def migrateSiteSchemasCall (st : CoreSitesState) (siteId : String) :
    CoreSitesState × Nat × Bool :=
  match st.siteSchemasMigration.lookup siteId with
  | some pid => (st, pid, false)
  | none =>
    let pid := st.nextPromiseId
    ({ st with
        siteSchemasMigration := st.siteSchemasMigration ++ [(siteId, pid)],
        nextPromiseId := pid + 1,
        migrationsStarted := st.migrationsStarted ++ [(siteId, pid)] },
      pid, true)

/-- The migration body of migrateSiteSchemas (part_007 lines 1718-1719):
create the tables registered without name/version, then apply every
registered schema to the site. -/
def migrationBody (env : SiteEnv) (st : CoreSitesState) (siteId : String) :
    Option CoreError × CoreSitesState :=
  let (e1, db1) := (st.siteDBs siteId).createTablesFromSchema env st.siteTablesSchemas
  match e1 with
  | some e => (some e, st.setDB siteId db1)
  | none =>
    let (e2, db2) := applySiteSchemas env siteId db1 st.siteSchemas
    (e2, st.setDB siteId db2)

/-- The `finally` handler of migrateSiteSchemas (part_007 lines
1723-1725): once the migration promise settles - with success or failure
- its entry is deleted from the in-flight map.  The `migrated` observer
records the site on success. -/
def migrationSettle (st : CoreSitesState) (siteId : String)
    (outcome : Option CoreError) : CoreSitesState :=
  { st with
    siteSchemasMigration := st.siteSchemasMigration.filter (fun e => e.1 != siteId),
    migrated := if outcome = none then st.migrated ++ [siteId] else st.migrated }

/-- migrateSiteSchemas run to completion in the sequential model: start,
execute the body, settle.  When a migration for this site is already in
flight the source returns that in-flight promise (the coalescing branch);
a sequential embedding cannot execute a concurrently running migration,
so callers below are analysed under the hypothesis that no migration is
in flight for the site (the coalescing behaviour itself is analysed
through migrateSiteSchemasCall / migrationSettle). -/
def migrateSiteSchemasRun (env : SiteEnv) (st : CoreSitesState) (siteId : String) :
    Option CoreError × CoreSitesState :=
  let (st1, pid, started) := migrateSiteSchemasCall st siteId
  if started then
    let (e, st2) := migrationBody env st1 siteId
    (e, migrationSettle st2 siteId e)
  else
    (none, st1)

/-- CoreSitesProvider.makeSiteFromSiteListEntry (part_007 lines
1160-1178): build the site from the persisted entry, migrate its schemas
and only then add it to the lookup-by-ID map `this.sites`. -/
def makeSiteFromSiteListEntry (env : SiteEnv) (st : CoreSitesState)
    (entryId : String) : Option CoreError × CoreSitesState :=
  let (e, st1) := migrateSiteSchemasRun env st entryId
  match e with
  | some err => (some err, st1)
  | none => (none, { st1 with sites := addIdOnce st1.sites entryId })

/-- CoreSitesProvider.getSite (part_007 lines 1133-1152).  The result is
the error or the id of the returned site.  With no siteId argument: the
current site when one is set, otherwise a CoreError without touching the
persisted sites list.  With a siteId: the current site, else the
lookup-by-ID map, else the site is retrieved from the persisted sites
list (counted by appSitesReads) and created via
makeSiteFromSiteListEntry. -/
def getSite (env : SiteEnv) (st : CoreSitesState) (siteId : Option String) :
    Option CoreError × CoreSitesState × Option String :=
  match siteId with
  | none =>
    match st.currentSite with
    | some c => (none, st, some c)
    | none => (some (.notFound "No current site found."), st, none)
  | some sid =>
    if st.currentSite = some sid then
      (none, st, some sid)
    else if sid ∈ st.sites then
      (none, st, some sid)
    else
      let st1 := { st with appSitesReads := st.appSitesReads + 1 }
      if sid ∈ st1.appSitesTable then
        let (e, st2) := makeSiteFromSiteListEntry env st1 sid
        match e with
        | some err => (some err, st2, none)
        | none => (none, st2, some sid)
      else
        (some (.notFound "No records found."), st1, none)

/-- Apply a schemas object to each of the given site ids (the
Promise.all over siteIds in registerSiteSchema, part_007 lines
1681-1687, modelled sequentially): each site is obtained with getSite
and the schemas are applied to its database. -/
def applySchemasToSites (env : SiteEnv) (schemas : JSObject CoreSiteSchema) :
    CoreSitesState → List String → Option CoreError × CoreSitesState
  | st, [] => (none, st)
  | st, sid :: rest =>
    let (ge, st1, found) := getSite env st (some sid)
    let (e1, st2) :=
      match ge, found with
      | some err, _ => (some err, st1)
      | none, some fid =>
        let (ae, db') := applySiteSchemas env fid (st1.siteDBs fid) schemas
        (ae, st1.setDB fid db')
      | none, none => (none, st1)
    let (e2, st3) := applySchemasToSites env schemas st2 rest
    (e1 <|> e2, st3)

/-- CoreSitesProvider.registerSiteSchema (part_007 lines 1672-1702).
With a current site: apply the schema at once, to every site of the
persisted list (getSitesIds) unless onlyCurrentSite, in which case the
schema gets its siteId member set and is applied to the current site
only; in either case the finally block then records the schema in
`this.siteSchemas`.  With no current site, the schema is recorded for
later application - but only when it is not an onlyCurrentSite schema;
an onlyCurrentSite schema registered with no current site is dropped. -/
def registerSiteSchema (env : SiteEnv) (st : CoreSitesState)
    (schema : CoreSiteSchema) : Option CoreError × CoreSitesState :=
  match st.currentSite with
  | some cur =>
    if !schema.onlyCurrentSite then
      let (e, st1) := applySchemasToSites env (JSObject.single schema.name schema)
        st st.appSitesTable
      (e, { st1 with siteSchemas := st1.siteSchemas.set schema.name schema })
    else
      let schema' := { schema with siteId := some cur }
      let (e, db') := applySiteSchemas env cur (st.siteDBs cur)
        (JSObject.single schema'.name schema')
      let st1 := st.setDB cur db'
      (e, { st1 with siteSchemas := st1.siteSchemas.set schema'.name schema' })
  | none =>
    if !schema.onlyCurrentSite then
      (none, { st with siteSchemas := st.siteSchemas.set schema.name schema })
    else
      (none, st)

/-- Outcome oracle for the external calls of newSite: whether
fetchSiteInfo resolves, whether isValidMoodleVersion accepts the info,
the site id computed by createSiteID from the fetched info, and whether
getSiteConfig resolves. -/
structure NewSiteEnv where
  env : SiteEnv
  fetchInfoOk : Bool
  validVersion : Bool
  siteId : String
  getConfigOk : Bool

/-- The tail of newSite (part_007 lines 660-687): getSiteConfig (whose
failure is only surfaced for a new site), addSite into the persisted
list (an upsert, see SiteDB.insertVersionRecord on why insertRecord
upserts), insertion into the lookup-by-ID map, and - when login is
requested - promotion to current site. -/
def finishNewSite (e : NewSiteEnv) (st : CoreSitesState) (isNewSite : Bool)
    (login : Bool) : Option CoreError × CoreSitesState :=
  if !e.getConfigOk && isNewSite then
    (some (.notFound "Error getting site config."), st)
  else
    let st1 := { st with appSitesTable := addIdOnce st.appSitesTable e.siteId }
    let st2 := { st1 with sites := addIdOnce st1.sites e.siteId }
    if login then
      (none, { st2 with currentSite := some e.siteId })
    else
      (none, st2)

/-- CoreSitesProvider.newSite (part_007 lines 623-700), the DB-lifecycle
slice: fetch the site info, validate the version, look the site up
(errors of that lookup are swallowed); for a site that does not exist
yet, migrate its schemas before anything else - in particular before the
site is added to the lookup-by-ID map or becomes current; a migration
failure rejects the whole call. -/
def newSite (e : NewSiteEnv) (st : CoreSitesState) (login : Bool) :
    Option CoreError × CoreSitesState :=
  if !e.fetchInfoOk then
    (some (.notFound "Error fetching site info."), st)
  else if !e.validVersion then
    (some (.notFound "Invalid Moodle version."), st)
  else
    let (ge, st1, _) := getSite e.env st (some e.siteId)
    match ge with
    | none =>
      -- Site already exists: its data is updated and it is reused.
      finishNewSite e st1 false login
    | some _ =>
      -- The catch swallows the lookup error: this is a new site.
      let (me, st2) := migrateSiteSchemasRun e.env st1 e.siteId
      match me with
      | some err => (some err, st2)
      | none => finishNewSite e st2 true login

/-! ## Helper lemmas -/

theorem lookup_append_of_none {α : Type} (l1 l2 : List (String × α)) (k : String)
    (h : l1.lookup k = none) : (l1 ++ l2).lookup k = l2.lookup k := by
  induction l1 with
  | nil => simp
  | cons e es ih =>
    rcases e with ⟨k', v'⟩
    simp only [List.lookup, List.cons_append] at h ⊢
    cases hk : (k == k') with
    | true => rw [hk] at h; exact Option.noConfusion h
    | false => rw [hk] at h; exact ih h

theorem lookup_filter_self_none {α : Type} (l : List (String × α)) (k : String) :
    (l.filter (fun e => e.1 != k)).lookup k = none := by
  induction l with
  | nil => simp
  | cons e es ih =>
    by_cases hk : e.1 = k
    · simp [List.filter, hk, ih]
    · have h1 : (e.1 != k) = true := by simp [hk]
      have h2 : (k == e.1) = false := by simp [Ne.symm hk]
      simp [List.filter, h1, List.lookup, h2, ih]

theorem jsSetEntries_lookup_self {α : Type} (k : String) (v : α)
    (es : List (String × α)) : (jsSetEntries k v es).lookup k = some v := by
  induction es with
  | nil => simp [jsSetEntries, List.lookup]
  | cons e es ih =>
    by_cases h : e.1 = k
    · simp [jsSetEntries, h, List.lookup]
    · have h2 : (k == e.1) = false := by simp [Ne.symm h]
      simp [jsSetEntries, h, List.lookup, h2, ih]

theorem jsSetEntries_of_fresh {α : Type} (k : String) (v : α)
    (es : List (String × α)) (h : ∀ e ∈ es, e.1 ≠ k) :
    jsSetEntries k v es = es ++ [(k, v)] := by
  induction es with
  | nil => simp [jsSetEntries]
  | cons e es ih =>
    have h1 : e.1 ≠ k := h e (List.mem_cons_self e es)
    simp [jsSetEntries, h1, ih (fun e' he' => h e' (List.mem_cons_of_mem e he'))]

theorem orderedEntries_single {α : Type} (k : String) (v : α) :
    (JSObject.single k v).orderedEntries = [(k, v)] := by
  unfold JSObject.single JSObject.orderedEntries sortAsc
  cases h : arrayIndexKey k <;> simp [List.filter, h, insertAsc]

theorem orderedEntries_of_no_index {α : Type} (o : JSObject α)
    (h : ∀ e ∈ o.entries, arrayIndexKey e.1 = none) :
    o.orderedEntries = o.entries := by
  unfold JSObject.orderedEntries
  have h1 : o.entries.filter (fun e => (arrayIndexKey e.1).isSome) = [] := by
    rw [List.filter_eq_nil_iff]
    intro e he
    simp [h e he]
  have h2 : o.entries.filter (fun e => (arrayIndexKey e.1).isNone) = o.entries := by
    rw [List.filter_eq_self]
    intro e he
    simp [h e he]
  simp [h1, h2, sortAsc]

/-! ## Concrete fixtures used by witnesses and counterexamples -/

/-- Oracle under which every external call succeeds. -/
def migEnvAllOk : SiteEnv := ⟨fun _ => true, fun _ _ => true⟩

/-- A site database with nothing in it. -/
def emptySiteDB : SiteDB := ⟨[], []⟩

/-- A provider state with no current site, no sites and no schemas. -/
def baseState : CoreSitesState :=
  ⟨none, [], ⟨[]⟩, [], [], fun _ => emptySiteDB, [], 0, 0, [], []⟩

/-! ## Claims -/

/-- C10: getSite with no siteId argument returns the current site when
one is set - without reading the persisted sites table (the whole state,
including the read counter, is untouched) - and rejects with the
CoreError "No current site found." when no current site is set, never
falling back to a stored site. -/
theorem getSite_without_id_uses_current_or_rejects (env : SiteEnv)
    (st : CoreSitesState) :
    (∀ c, st.currentSite = some c → getSite env st none = (none, st, some c))
    ∧ (st.currentSite = none →
        getSite env st none = (some (.notFound "No current site found."), st, none)) := by
  constructor
  · intro c hc
    simp [getSite, hc]
  · intro hc
    simp [getSite, hc]

theorem getSite_without_id_uses_current_or_rejects_witness :
    getSite migEnvAllOk { baseState with currentSite := some "siteA" } none
        = (none, { baseState with currentSite := some "siteA" }, some "siteA")
    ∧ getSite migEnvAllOk baseState none
        = (some (.notFound "No current site found."), baseState, none) :=
  ⟨(getSite_without_id_uses_current_or_rejects migEnvAllOk
      { baseState with currentSite := some "siteA" }).1 "siteA" rfl,
   (getSite_without_id_uses_current_or_rejects migEnvAllOk baseState).2 rfl⟩

/-- C3: if the recorded installed version of schema S on a site is V,
applying a registration of S with version at most V is a no-op for that
site: the database is returned untouched (so zero table creations, zero
migration-callback invocations, and the recorded version stays V) and no
error is raised. -/
theorem applySiteSchemas_noop_when_version_not_newer (env : SiteEnv)
    (siteId : String) (db : SiteDB) (schema : CoreSiteSchema) (V : Int)
    (hrec : versionsFromRecords db.schemaVersions schema.name = some V)
    (hle : schema.version ≤ V) :
    applySiteSchemas env siteId db (JSObject.single schema.name schema) = (none, db) := by
  unfold applySiteSchemas
  rw [orderedEntries_single]
  unfold applySchemasLoop
  simp [hrec, hle, applySchemasLoop]

/-- C3 witness fixture: schema S at version 2. -/
def schemaS (v : Int) : CoreSiteSchema := ⟨"S", v, false, [], true, false, none⟩

theorem applySiteSchemas_noop_when_version_not_newer_witness :
    applySiteSchemas migEnvAllOk "siteA" ⟨[("S", 2)], []⟩
        (JSObject.single "S" (schemaS 2)) = (none, ⟨[("S", 2)], []⟩) :=
  applySiteSchemas_noop_when_version_not_newer migEnvAllOk "siteA"
    ⟨[("S", 2)], []⟩ (schemaS 2) 2 rfl (by decide)

/-- C1 fixture: the site database of the claim, with schema S installed
at version 1, and the two applications of the claim scenario: S
registered at version 2, then at version 3, everything succeeding. -/
def c1db1 : SiteDB :=
  (applySiteSchemas migEnvAllOk "siteA" ⟨[("S", 1)], []⟩
    (JSObject.single "S" (schemaS 2))).2

/-- The database after the second application of the C1 scenario. -/
def c1db2 : SiteDB :=
  (applySiteSchemas migEnvAllOk "siteA" c1db1 (JSObject.single "S" (schemaS 3))).2

/-- C1: evaluation of the code at the failing input.  Starting from a
site with schema S installed at version 1 and registering S at version 2
and then at version 3 (all external calls succeeding), the code invokes
the migration callback for the transition 1 to 2 and then for the
transition 1 to 3 - the 2 to 3 invocation the claim requires never
happens - because applySiteSchema records the installed version under
the global `name` (window.name, the empty string) instead of
schema.name: the version-record table ends as rows (S,1) and (empty,3),
and never contains (S,3). -/
theorem applySiteSchema_version_record_uses_global_name :
    c1db2.log = [.migrateCallback "S" 1 2, .insertVersionRecord "" 2,
                 .migrateCallback "S" 1 3, .insertVersionRecord "" 3]
    ∧ DBAction.migrateCallback "S" 2 3 ∉ c1db2.log
    ∧ c1db2.schemaVersions = [("S", 1), ("", 3)]
    ∧ ("S", 3) ∉ c1db2.schemaVersions := by
  refine ⟨by decide, by decide, by decide, by decide⟩

/-- C2: while a migration for a site is in flight, a second call to
migrateSiteSchemas for the same site returns the same in-flight promise
without starting a new migration body (state unchanged, so the schema
migration callbacks run once, not twice); once the operation settles -
with success or failure - the in-flight entry is cleared, so a later
call starts a fresh migration. -/
theorem migrateSiteSchemas_coalesces_concurrent_calls (st : CoreSitesState)
    (siteId : String) (outcome : Option CoreError)
    (h : st.siteSchemasMigration.lookup siteId = none) :
    (migrateSiteSchemasCall st siteId).2.2 = true
    ∧ migrateSiteSchemasCall (migrateSiteSchemasCall st siteId).1 siteId
        = ((migrateSiteSchemasCall st siteId).1,
           (migrateSiteSchemasCall st siteId).2.1, false)
    ∧ (migrationSettle (migrateSiteSchemasCall st siteId).1 siteId
        outcome).siteSchemasMigration.lookup siteId = none
    ∧ (migrateSiteSchemasCall (migrationSettle (migrateSiteSchemasCall st siteId).1
        siteId outcome) siteId).2.2 = true := by
  have hcall : migrateSiteSchemasCall st siteId
      = ({ st with
            siteSchemasMigration := st.siteSchemasMigration
              ++ [(siteId, st.nextPromiseId)],
            nextPromiseId := st.nextPromiseId + 1,
            migrationsStarted := st.migrationsStarted
              ++ [(siteId, st.nextPromiseId)] },
          st.nextPromiseId, true) := by
    unfold migrateSiteSchemasCall
    rw [h]
  have hlook2 : (migrateSiteSchemasCall st siteId).1.siteSchemasMigration.lookup siteId
      = some st.nextPromiseId := by
    rw [hcall]
    exact (lookup_append_of_none _ _ _ h).trans (by simp [List.lookup])
  refine ⟨by rw [hcall], ?_, ?_, ?_⟩
  · rw [migrateSiteSchemasCall, hlook2]
    rw [hcall]
  · exact lookup_filter_self_none _ _
  · rw [migrateSiteSchemasCall]
    rw [show (migrationSettle (migrateSiteSchemasCall st siteId).1 siteId
        outcome).siteSchemasMigration.lookup siteId = none from
      lookup_filter_self_none _ _]

theorem migrateSiteSchemas_coalesces_concurrent_calls_witness :
    (migrateSiteSchemasCall baseState "siteA").2.2 = true
    ∧ migrateSiteSchemasCall (migrateSiteSchemasCall baseState "siteA").1 "siteA"
        = ((migrateSiteSchemasCall baseState "siteA").1,
           (migrateSiteSchemasCall baseState "siteA").2.1, false)
    ∧ (migrationSettle (migrateSiteSchemasCall baseState "siteA").1 "siteA"
        none).siteSchemasMigration.lookup "siteA" = none
    ∧ (migrateSiteSchemasCall (migrationSettle
        (migrateSiteSchemasCall baseState "siteA").1 "siteA" none) "siteA").2.2 = true :=
  migrateSiteSchemas_coalesces_concurrent_calls baseState "siteA" none rfl

/-- C7: inserting a record whose primary key equals that of an already
stored record fails with a uniqueness violation and leaves the table
untouched: same state, same row count, same in-memory mirror (the mirror
is only updated after the store write succeeds). -/
theorem eager_insert_duplicate_key_fails_unchanged (t : CoreEagerDatabaseTable)
    (r r' : DBRecord) (hmem : r' ∈ t.storeRows)
    (hpk : getPrimaryKeyFromRecord t.primaryKeyColumns r'
         = getPrimaryKeyFromRecord t.primaryKeyColumns r) :
    t.insert r = (some CoreError.uniquenessViolation, t)
    ∧ (t.insert r).2.rowCount = t.rowCount
    ∧ (t.insert r).2.records = t.records := by
  have hany : t.storeRows.any (fun row =>
      getPrimaryKeyFromRecord t.primaryKeyColumns row
        == getPrimaryKeyFromRecord t.primaryKeyColumns r) = true :=
    List.any_eq_true.mpr ⟨r', hmem, by simp [hpk]⟩
  have h1 : t.insert r = (some CoreError.uniquenessViolation, t) := by
    unfold CoreEagerDatabaseTable.insert dbStoreInsert
    rw [hany]
    simp
  exact ⟨h1, by rw [h1], by rw [h1]⟩

theorem eager_insert_duplicate_key_fails_unchanged_witness :
    (CoreEagerDatabaseTable.insert
        ⟨["id"], [[("id", .int 1), ("name", .text "a")]],
          ⟨[("1", [("id", .int 1), ("name", .text "a")])]⟩⟩
        [("id", .int 1), ("name", .text "b")]
      = (some CoreError.uniquenessViolation,
          ⟨["id"], [[("id", .int 1), ("name", .text "a")]],
            ⟨[("1", [("id", .int 1), ("name", .text "a")])]⟩⟩))
    ∧ (CoreEagerDatabaseTable.insert
        ⟨["id"], [[("id", .int 1), ("name", .text "a")]],
          ⟨[("1", [("id", .int 1), ("name", .text "a")])]⟩⟩
        [("id", .int 1), ("name", .text "b")]).2.rowCount
      = (⟨["id"], [[("id", .int 1), ("name", .text "a")]],
          ⟨[("1", [("id", .int 1), ("name", .text "a")])]⟩⟩ :
            CoreEagerDatabaseTable).rowCount
    ∧ (CoreEagerDatabaseTable.insert
        ⟨["id"], [[("id", .int 1), ("name", .text "a")]],
          ⟨[("1", [("id", .int 1), ("name", .text "a")])]⟩⟩
        [("id", .int 1), ("name", .text "b")]).2.records
      = (⟨["id"], [[("id", .int 1), ("name", .text "a")]],
          ⟨[("1", [("id", .int 1), ("name", .text "a")])]⟩⟩ :
            CoreEagerDatabaseTable).records :=
  eager_insert_duplicate_key_fails_unchanged
    ⟨["id"], [[("id", .int 1), ("name", .text "a")]],
      ⟨[("1", [("id", .int 1), ("name", .text "a")])]⟩⟩
    [("id", .int 1), ("name", .text "b")]
    [("id", .int 1), ("name", .text "a")]
    (by decide) (by decide)

/-- C8: inserting a record whose primary key is not yet present succeeds,
and findByPrimaryKey on that key then returns a record equal to the
inserted one in all columns. -/
theorem eager_insert_findByPrimaryKey_roundtrip (t : CoreEagerDatabaseTable)
    (r : DBRecord)
    (hfresh : ∀ r' ∈ t.storeRows,
        getPrimaryKeyFromRecord t.primaryKeyColumns r'
          ≠ getPrimaryKeyFromRecord t.primaryKeyColumns r) :
    (t.insert r).1 = none
    ∧ (t.insert r).2.findByPrimaryKey
        (getPrimaryKeyFromRecord t.primaryKeyColumns r) = .ok r := by
  have hany : t.storeRows.any (fun row =>
      getPrimaryKeyFromRecord t.primaryKeyColumns row
        == getPrimaryKeyFromRecord t.primaryKeyColumns r) = false := by
    rw [List.any_eq_false]
    intro r' hr'
    simp [hfresh r' hr']
  have hins : t.insert r
      = (none, { t with storeRows := t.storeRows ++ [r],
                        records := t.records.set (t.skey r) r }) := by
    unfold CoreEagerDatabaseTable.insert dbStoreInsert
    rw [hany]
    simp
  refine ⟨by rw [hins], ?_⟩
  rw [hins]
  unfold CoreEagerDatabaseTable.findByPrimaryKey
  have : (JSObject.set t.records (t.skey r) r).get
      (serializePrimaryKey (getPrimaryKeyFromRecord t.primaryKeyColumns r)) = some r :=
    jsSetEntries_lookup_self _ _ _
  rw [this]

theorem eager_insert_findByPrimaryKey_roundtrip_witness :
    ((CoreEagerDatabaseTable.emptyTable ["id"]).insert
        [("id", .int 1), ("name", .text "a")]).1 = none
    ∧ ((CoreEagerDatabaseTable.emptyTable ["id"]).insert
        [("id", .int 1), ("name", .text "a")]).2.findByPrimaryKey
          (getPrimaryKeyFromRecord ["id"] [("id", .int 1), ("name", .text "a")])
        = .ok [("id", .int 1), ("name", .text "a")] :=
  eager_insert_findByPrimaryKey_roundtrip (CoreEagerDatabaseTable.emptyTable ["id"])
    [("id", .int 1), ("name", .text "a")]
    (by intro r' hr'; simp [CoreEagerDatabaseTable.emptyTable] at hr')

/-- C9 fixture: an Eager table with numeric primary keys, filled by
inserting the record with id 2 first, then the record with id 1. -/
def c9table : CoreEagerDatabaseTable :=
  (CoreEagerDatabaseTable.emptyTable ["id"]).insertList
    [[("id", DBValue.int 2)], [("id", DBValue.int 1)]]

/-- C9 counterexample: the claim that an Eager table returns rows in
insertion order for all primary-key values, including numeric ones, is
false.  The mirror is a plain object, and its serialized numeric keys
are array-index keys, which JavaScript enumerates in ascending numeric
order, not in insertion order: after inserting id 2 then id 1, all()
returns the id-1 row first. -/
theorem eager_all_numeric_keys_not_insertion_order :
    c9table.all none = [[("id", DBValue.int 1)], [("id", DBValue.int 2)]]
    ∧ c9table.all none ≠ [[("id", DBValue.int 2)], [("id", DBValue.int 1)]] := by
  refine ⟨by decide, by decide⟩

/-- The mirror an Eager table holds after loading, in row order, the
given store rows (record objects keyed by serialized primary key). -/
def mirrorOf (primaryKeyColumns : List String) (rows : List DBRecord) :
    List (String × DBRecord) :=
  rows.map (fun r => (serializePrimaryKey (getPrimaryKeyFromRecord primaryKeyColumns r), r))

theorem eager_insert_fresh_step (pk : List String) (rows : List DBRecord)
    (r : DBRecord)
    (hfresh : serializePrimaryKey (getPrimaryKeyFromRecord pk r)
        ∉ rows.map (fun x => serializePrimaryKey (getPrimaryKeyFromRecord pk x))) :
    CoreEagerDatabaseTable.insert ⟨pk, rows, ⟨mirrorOf pk rows⟩⟩ r
      = (none, ⟨pk, rows ++ [r], ⟨mirrorOf pk (rows ++ [r])⟩⟩) := by
  have hany : rows.any (fun row =>
      getPrimaryKeyFromRecord pk row == getPrimaryKeyFromRecord pk r) = false := by
    rw [List.any_eq_false]
    intro x hx
    simp only [beq_iff_eq]
    intro hpk
    exact hfresh (List.mem_map.mpr ⟨x, hx, by rw [hpk]⟩)
  have hset : jsSetEntries (serializePrimaryKey (getPrimaryKeyFromRecord pk r)) r
      (mirrorOf pk rows) = mirrorOf pk rows ++
        [(serializePrimaryKey (getPrimaryKeyFromRecord pk r), r)] := by
    apply jsSetEntries_of_fresh
    intro e he
    rcases List.mem_map.mp he with ⟨x, hx, hex⟩
    subst hex
    intro hcontra
    exact hfresh (hcontra ▸ List.mem_map.mpr ⟨x, hx, rfl⟩)
  unfold CoreEagerDatabaseTable.insert dbStoreInsert
  rw [hany]
  simp only [Bool.false_eq_true, if_false, JSObject.set, CoreEagerDatabaseTable.skey]
  rw [hset]
  simp [mirrorOf]

theorem eager_insertList_fresh (pk : List String) (rs : List DBRecord) :
    ∀ rows : List DBRecord,
    ((rows ++ rs).map
        (fun r => serializePrimaryKey (getPrimaryKeyFromRecord pk r))).Nodup →
    CoreEagerDatabaseTable.insertList ⟨pk, rows, ⟨mirrorOf pk rows⟩⟩ rs
      = ⟨pk, rows ++ rs, ⟨mirrorOf pk (rows ++ rs)⟩⟩ := by
  induction rs with
  | nil => intro rows _; simp [CoreEagerDatabaseTable.insertList]
  | cons r rs ih =>
    intro rows hnodup
    have hfresh : serializePrimaryKey (getPrimaryKeyFromRecord pk r)
        ∉ rows.map (fun x => serializePrimaryKey (getPrimaryKeyFromRecord pk x)) := by
      rw [List.map_append] at hnodup
      have h3 := (List.nodup_append.mp hnodup).2.2
      exact fun hmem => h3 hmem (by simp)
    have hstep := eager_insert_fresh_step pk rows r hfresh
    have hrw : rows ++ r :: rs = (rows ++ [r]) ++ rs := by simp
    have hih := ih (rows ++ [r]) (by rw [← hrw]; exact hnodup)
    calc CoreEagerDatabaseTable.insertList ⟨pk, rows, ⟨mirrorOf pk rows⟩⟩ (r :: rs)
        = CoreEagerDatabaseTable.insertList
            (CoreEagerDatabaseTable.insert ⟨pk, rows, ⟨mirrorOf pk rows⟩⟩ r).2 rs := by
          simp [CoreEagerDatabaseTable.insertList]
      _ = CoreEagerDatabaseTable.insertList ⟨pk, rows ++ [r], ⟨mirrorOf pk (rows ++ [r])⟩⟩ rs := by
          rw [hstep]
      _ = ⟨pk, (rows ++ [r]) ++ rs, ⟨mirrorOf pk ((rows ++ [r]) ++ rs)⟩⟩ := hih
      _ = ⟨pk, rows ++ r :: rs, ⟨mirrorOf pk (rows ++ r :: rs)⟩⟩ := by rw [← hrw]

/-- C9 amended: all() on an Eager table returns the rows of the mirror
in JavaScript object key order: insertion order is only guaranteed when
no serialized primary key is an array-index (canonical numeric) string -
for records inserted from an empty table with pairwise distinct,
non-numeric serialized keys, all() returns them in insertion order;
numeric keys are instead enumerated first, in ascending numeric order
(see the counterexample). -/
theorem eager_all_insertion_order_nonindex_keys (pk : List String)
    (rs : List DBRecord)
    (hnodup : (rs.map
        (fun r => serializePrimaryKey (getPrimaryKeyFromRecord pk r))).Nodup)
    (hnoidx : ∀ r ∈ rs,
        arrayIndexKey (serializePrimaryKey (getPrimaryKeyFromRecord pk r)) = none) :
    ((CoreEagerDatabaseTable.emptyTable pk).insertList rs).all none = rs := by
  have hins := eager_insertList_fresh pk rs [] (by simpa using hnodup)
  have h0 : CoreEagerDatabaseTable.emptyTable pk
      = ⟨pk, [], ⟨mirrorOf pk []⟩⟩ := rfl
  rw [h0, hins]
  show (⟨mirrorOf pk ([] ++ rs)⟩ : JSObject DBRecord).valuesList = rs
  unfold JSObject.valuesList
  rw [orderedEntries_of_no_index]
  · simp only [mirrorOf, List.map_map]
    exact List.map_id rs
  · intro e he
    rcases List.mem_map.mp he with ⟨x, hx, hex⟩
    subst hex
    exact hnoidx x (by simpa using hx)

theorem eager_all_insertion_order_nonindex_keys_witness :
    ((CoreEagerDatabaseTable.emptyTable ["id"]).insertList
        [[("id", DBValue.text "b")], [("id", DBValue.text "a")]]).all none
      = [[("id", DBValue.text "b")], [("id", DBValue.text "a")]] :=
  eager_all_insertion_order_nonindex_keys ["id"]
    [[("id", DBValue.text "b")], [("id", DBValue.text "a")]]
    (by decide) (by decide)

theorem applySiteSchema_failure_aux (env : SiteEnv) (siteId : String) (db : SiteDB)
    (schema : CoreSiteSchema) (oldVersion : Int)
    (hfail : (schema.hasTables = true ∧ env.createTablesOk schema.tables = false)
           ∨ (schema.hasMigrate = true
              ∧ env.migrateOk schema.name oldVersion = false)) :
    (applySiteSchema env siteId db schema oldVersion).1.isSome = true
    ∧ (applySiteSchema env siteId db schema oldVersion).2.schemaVersions
        = db.schemaVersions := by
  unfold applySiteSchema SiteDB.createTablesFromSchema
  rcases hfail with ⟨hT, hC⟩ | ⟨hM, hMo⟩
  · constructor <;> simp [hT, hC]
  · cases hT : schema.hasTables
    · constructor <;> simp [hT, hM, hMo]
    · cases hC : env.createTablesOk schema.tables
      · constructor <;> simp [hT, hC]
      · constructor <;> simp [hT, hC, hM, hMo]

theorem applySiteSchemas_single_pending (env : SiteEnv) (siteId : String)
    (db : SiteDB) (schema : CoreSiteSchema)
    (hpending : (versionsFromRecords db.schemaVersions schema.name).getD 0
        < schema.version)
    (hsite : schema.siteId = none ∨ schema.siteId = some siteId) :
    applySiteSchemas env siteId db (JSObject.single schema.name schema)
      = applySiteSchema env siteId db schema
          ((versionsFromRecords db.schemaVersions schema.name).getD 0) := by
  unfold applySiteSchemas
  rw [orderedEntries_single]
  unfold applySchemasLoop
  have hge : ¬ ((versionsFromRecords db.schemaVersions schema.name).getD 0
      ≥ schema.version) := not_le.mpr hpending
  rcases hsite with h | h <;>
    simp [h, hge, applySchemasLoop]

/-- C4: if table creation or the migration callback throws while a
schema is applied to a site, no installed-version record is written for
that schema (the schema_versions table is left exactly as it was, at the
last successfully applied value) and the error propagates - through
applySiteSchema, and through registerSiteSchema when the schema was
being applied to the current site - so a retry re-runs the same
migration from the same old version. -/
theorem migration_failure_leaves_version_unchanged_and_propagates
    (env : SiteEnv) (st : CoreSitesState) (cur siteId : String) (db : SiteDB)
    (schema : CoreSiteSchema) (oldVersion : Int)
    (hfail : (schema.hasTables = true ∧ env.createTablesOk schema.tables = false)
           ∨ (schema.hasMigrate = true
              ∧ env.migrateOk schema.name oldVersion = false)) :
    ((applySiteSchema env siteId db schema oldVersion).1.isSome = true
      ∧ (applySiteSchema env siteId db schema oldVersion).2.schemaVersions
          = db.schemaVersions)
    ∧ (st.currentSite = some cur → schema.onlyCurrentSite = true →
        oldVersion = (versionsFromRecords (st.siteDBs cur).schemaVersions
            schema.name).getD 0 →
        oldVersion < schema.version →
        (registerSiteSchema env st schema).1.isSome = true
        ∧ ((registerSiteSchema env st schema).2.siteDBs cur).schemaVersions
            = (st.siteDBs cur).schemaVersions) := by
  refine ⟨applySiteSchema_failure_aux env siteId db schema oldVersion hfail, ?_⟩
  intro hcur honly hold hpend
  have haux := applySiteSchema_failure_aux env cur (st.siteDBs cur)
    { schema with siteId := some cur } oldVersion hfail
  have happ : applySiteSchemas env cur (st.siteDBs cur)
      (JSObject.single schema.name { schema with siteId := some cur })
      = applySiteSchema env cur (st.siteDBs cur)
          { schema with siteId := some cur } oldVersion := by
    have := applySiteSchemas_single_pending env cur (st.siteDBs cur)
      { schema with siteId := some cur } (by rw [← hold] at *; exact hpend)
      (Or.inr rfl)
    rw [this, ← hold]
  rw [honly] at haux happ
  unfold registerSiteSchema
  rw [hcur]
  simp only [honly, Bool.not_true, Bool.false_eq_true, if_false]
  rw [happ]
  constructor
  · exact haux.1
  · show ((st.setDB cur _).siteDBs cur).schemaVersions = _
    unfold CoreSitesState.setDB
    simp [haux.2]

/-- Oracle under which table creation succeeds but every migration
callback rejects. -/
def migEnvCallbackFails : SiteEnv := ⟨fun _ => true, fun _ _ => false⟩

/-- C4 witness fixture: an onlyCurrentSite schema with a migration
callback, and a state whose current site is siteA. -/
def c4schema : CoreSiteSchema := ⟨"S", 2, false, [], true, true, none⟩

/-- C4 witness fixture state. -/
def c4state : CoreSitesState := { baseState with currentSite := some "siteA" }

theorem migration_failure_leaves_version_unchanged_and_propagates_witness :
    ((applySiteSchema migEnvCallbackFails "siteA" emptySiteDB c4schema 0).1.isSome
        = true
      ∧ (applySiteSchema migEnvCallbackFails "siteA" emptySiteDB
          c4schema 0).2.schemaVersions = emptySiteDB.schemaVersions)
    ∧ ((registerSiteSchema migEnvCallbackFails c4state c4schema).1.isSome = true
      ∧ ((registerSiteSchema migEnvCallbackFails c4state
            c4schema).2.siteDBs "siteA").schemaVersions
          = (c4state.siteDBs "siteA").schemaVersions) :=
  ⟨(migration_failure_leaves_version_unchanged_and_propagates migEnvCallbackFails
      c4state "siteA" "siteA" emptySiteDB c4schema 0 (Or.inr ⟨rfl, rfl⟩)).1,
   (migration_failure_leaves_version_unchanged_and_propagates migEnvCallbackFails
      c4state "siteA" "siteA" emptySiteDB c4schema 0 (Or.inr ⟨rfl, rfl⟩)).2
      rfl rfl rfl (by decide)⟩

/-- C6 fixture: an onlyCurrentSite schema, registered while no current
site is loaded. -/
def onlyCurSchema : CoreSiteSchema := ⟨"OC", 1, false, [], true, true, none⟩

/-- C6 fixture: no current site, one persisted site s1 not loaded yet. -/
def c6state : CoreSitesState := { baseState with appSitesTable := ["s1"] }

/-- C6 fixture: the state after registering the onlyCurrentSite schema
with no current site and then loading site s1 from the persisted list. -/
def c6after : CoreSitesState :=
  (makeSiteFromSiteListEntry migEnvAllOk
    (registerSiteSchema migEnvAllOk c6state onlyCurSchema).2 "s1").2

/-- C6 counterexample: a schema registration can be lost.  Registering
an onlyCurrentSite schema while no current site is loaded leaves the
provider state completely unchanged - the schema is not recorded in
siteSchemas - and when site s1 is subsequently loaded, its database
receives only the unversioned table-creation call and never the OC
migration: the registration was dropped, refuting the claim that a
registered schema is never lost. -/
theorem registerSiteSchema_drops_onlyCurrentSite_without_current :
    registerSiteSchema migEnvAllOk c6state onlyCurSchema = (none, c6state)
    ∧ c6state.siteSchemas.get "OC" = none
    ∧ (registerSiteSchema migEnvAllOk c6state
        onlyCurSchema).2.siteSchemas.get "OC" = none
    ∧ "s1" ∈ c6after.sites
    ∧ (c6after.siteDBs "s1").log = [.createTables []] :=
  ⟨rfl, rfl, rfl, by decide, by decide⟩

theorem getSite_loaded (env : SiteEnv) (st : CoreSitesState) (sid : String)
    (h : sid ∈ st.sites ∨ st.currentSite = some sid) :
    getSite env st (some sid) = (none, st, some sid) := by
  unfold getSite
  rcases h with h | h
  · by_cases hc : st.currentSite = some sid <;> simp [hc, h]
  · simp [h]

theorem applySchemasToSites_loaded (env : SiteEnv) (schemas : JSObject CoreSiteSchema) :
    ∀ (ids : List String) (st : CoreSitesState),
    (∀ sid ∈ ids, sid ∈ st.sites ∨ st.currentSite = some sid) →
    ids.Nodup →
    ((∀ s, s ∉ ids →
        (applySchemasToSites env schemas st ids).2.siteDBs s = st.siteDBs s)
     ∧ (applySchemasToSites env schemas st ids).2.sites = st.sites
     ∧ (applySchemasToSites env schemas st ids).2.currentSite = st.currentSite
     ∧ (applySchemasToSites env schemas st ids).2.siteSchemas = st.siteSchemas
     ∧ (∀ sid ∈ ids, (applySchemasToSites env schemas st ids).2.siteDBs sid
          = (applySiteSchemas env sid (st.siteDBs sid) schemas).2)) := by
  intro ids
  induction ids with
  | nil =>
    intro st _ _
    refine ⟨fun s _ => rfl, rfl, rfl, rfl, fun sid h => absurd h (by simp)⟩
  | cons sid rest ih =>
    intro st hload hnodup
    have hget := getSite_loaded env st sid (hload sid (by simp))
    obtain ⟨ae, db0, happ⟩ : ∃ ae db0,
        applySiteSchemas env sid (st.siteDBs sid) schemas = (ae, db0) := ⟨_, _, rfl⟩
    obtain ⟨e2, st3, hrest⟩ : ∃ e2 st3,
        applySchemasToSites env schemas (st.setDB sid db0) rest = (e2, st3) :=
      ⟨_, _, rfl⟩
    have hstep : applySchemasToSites env schemas st (sid :: rest) = (ae <|> e2, st3) := by
      simp only [applySchemasToSites, hget, happ, hrest]
    have hload2 : ∀ s ∈ rest,
        s ∈ (st.setDB sid db0).sites ∨ (st.setDB sid db0).currentSite = some s :=
      fun s hs => hload s (by simp [hs])
    have hsidrest : sid ∉ rest := (List.nodup_cons.mp hnodup).1
    obtain ⟨iha, ihb, ihc, ihd, ihe⟩ :=
      ih (st.setDB sid db0) hload2 (List.nodup_cons.mp hnodup).2
    simp only [hrest] at iha ihb ihc ihd ihe
    refine ⟨?_, ?_, ?_, ?_, ?_⟩
    · intro s hs
      rw [hstep]
      show st3.siteDBs s = st.siteDBs s
      rw [iha s (fun h => hs (List.mem_cons_of_mem _ h))]
      show (if s = sid then db0 else st.siteDBs s) = st.siteDBs s
      have hne : s ≠ sid := fun h => hs (h ▸ List.mem_cons_self _ _)
      simp [hne]
    · rw [hstep]; exact ihb
    · rw [hstep]; exact ihc
    · rw [hstep]; exact ihd
    · intro s hs
      rw [hstep]
      show st3.siteDBs s = (applySiteSchemas env s (st.siteDBs s) schemas).2
      rcases List.mem_cons.mp hs with h | h
      · subst h
        rw [iha s hsidrest]
        show (if s = s then db0 else st.siteDBs s)
            = (applySiteSchemas env s (st.siteDBs s) schemas).2
        simp [happ]
      · rw [ihe s h]
        have hne : s ≠ sid := fun hh => hsidrest (hh ▸ h)
        show (applySiteSchemas env s
            ((if s = sid then db0 else st.siteDBs s)) schemas).2
          = (applySiteSchemas env s (st.siteDBs s) schemas).2
        simp [hne]

/-- C6 amended: registerSiteSchema dispatches as follows.  With a
current site loaded: an onlyCurrentSite schema is applied to the current
site only (all other site databases untouched) and recorded - with its
siteId member set - in siteSchemas for later sites; any other schema is
applied to every site of the persisted list and recorded in siteSchemas.
With no current site: a non-onlyCurrentSite schema is recorded for
application when each site is later loaded or created, but an
onlyCurrentSite schema is discarded without any effect (see the
counterexample): such a registration is lost. -/
theorem registerSiteSchema_dispatch (env : SiteEnv) (st : CoreSitesState)
    (schema : CoreSiteSchema) (cur : String) :
    (st.currentSite = some cur → schema.onlyCurrentSite = true →
      ((∀ s, s ≠ cur →
          (registerSiteSchema env st schema).2.siteDBs s = st.siteDBs s)
       ∧ (registerSiteSchema env st schema).2.siteDBs cur
           = (applySiteSchemas env cur (st.siteDBs cur)
               (JSObject.single schema.name
                 { schema with siteId := some cur })).2
       ∧ (registerSiteSchema env st schema).2.siteSchemas.get schema.name
           = some { schema with siteId := some cur }))
    ∧ (st.currentSite = some cur → schema.onlyCurrentSite = false →
        st.appSitesTable.Nodup →
        (∀ sid ∈ st.appSitesTable, sid ∈ st.sites ∨ st.currentSite = some sid) →
        ((∀ sid ∈ st.appSitesTable,
            (registerSiteSchema env st schema).2.siteDBs sid
              = (applySiteSchemas env sid (st.siteDBs sid)
                  (JSObject.single schema.name schema)).2)
         ∧ (registerSiteSchema env st schema).2.siteSchemas.get schema.name
             = some schema))
    ∧ (st.currentSite = none → schema.onlyCurrentSite = false →
        registerSiteSchema env st schema
          = (none, { st with
              siteSchemas := st.siteSchemas.set schema.name schema }))
    ∧ (st.currentSite = none → schema.onlyCurrentSite = true →
        registerSiteSchema env st schema = (none, st)) := by
  refine ⟨?_, ?_, ?_, ?_⟩
  · intro hcur honly
    unfold registerSiteSchema
    rw [hcur, honly]
    simp only [Bool.not_true, Bool.false_eq_true, if_false]
    refine ⟨?_, ?_, ?_⟩
    · intro s hs
      show (if s = cur then _ else st.siteDBs s) = st.siteDBs s
      simp [hs]
    · show (if cur = cur then _ else _) = _
      simp
    · exact jsSetEntries_lookup_self _ _ _
  · intro hcur honly hnodup hload
    unfold registerSiteSchema
    rw [hcur, honly]
    simp only [Bool.not_false, if_true]
    obtain ⟨_, _, _, _, ihe⟩ := applySchemasToSites_loaded env
      (JSObject.single schema.name schema) st.appSitesTable st hload hnodup
    refine ⟨?_, ?_⟩
    · intro sid hsid
      exact ihe sid hsid
    · exact jsSetEntries_lookup_self _ _ _
  · intro hcur honly
    unfold registerSiteSchema
    rw [hcur, honly]
    simp
  · intro hcur honly
    unfold registerSiteSchema
    rw [hcur, honly]
    simp

theorem registerSiteSchema_dispatch_witness :
    registerSiteSchema migEnvAllOk baseState (schemaS 2)
      = (none, { baseState with
          siteSchemas := baseState.siteSchemas.set "S" (schemaS 2) }) :=
  (registerSiteSchema_dispatch migEnvAllOk baseState (schemaS 2) "x").2.2.1 rfl rfl

/-- The invariant of C5: every site reachable through the lookup-by-ID
map, and the current site, has completed its schema migration. -/
def migratedInv (st : CoreSitesState) : Prop :=
  (∀ s ∈ st.sites, s ∈ st.migrated)
  ∧ (∀ c, st.currentSite = some c → c ∈ st.migrated)

theorem migrationBody_parts (env : SiteEnv) (st : CoreSitesState) (sid : String) :
    ∃ e db, migrationBody env st sid = (e, st.setDB sid db) := by
  unfold migrationBody
  obtain ⟨e1, db1, h1⟩ : ∃ e1 db1,
      (st.siteDBs sid).createTablesFromSchema env st.siteTablesSchemas = (e1, db1) :=
    ⟨_, _, rfl⟩
  rw [h1]
  cases e1 with
  | some err => exact ⟨some err, db1, by simp⟩
  | none =>
    obtain ⟨e2, db2, h2⟩ : ∃ e2 db2,
        applySiteSchemas env sid db1 st.siteSchemas = (e2, db2) := ⟨_, _, rfl⟩
    exact ⟨e2, db2, by simp [h2]⟩

theorem migrateSiteSchemasRun_parts (env : SiteEnv) (st : CoreSitesState)
    (sid : String) (h : st.siteSchemasMigration = []) :
    ∃ e db, migrateSiteSchemasRun env st sid
      = (e, { st with
          siteDBs := fun x => if x = sid then db else st.siteDBs x,
          nextPromiseId := st.nextPromiseId + 1,
          migrationsStarted := st.migrationsStarted ++ [(sid, st.nextPromiseId)],
          siteSchemasMigration := [],
          migrated := if e = none then st.migrated ++ [sid] else st.migrated }) := by
  have hcall : migrateSiteSchemasCall st sid
      = ({ st with
            siteSchemasMigration := [(sid, st.nextPromiseId)],
            nextPromiseId := st.nextPromiseId + 1,
            migrationsStarted := st.migrationsStarted ++ [(sid, st.nextPromiseId)] },
          st.nextPromiseId, true) := by
    unfold migrateSiteSchemasCall
    rw [h]
    rfl
  obtain ⟨e, db, hbody⟩ := migrationBody_parts env
    { st with
        siteSchemasMigration := [(sid, st.nextPromiseId)],
        nextPromiseId := st.nextPromiseId + 1,
        migrationsStarted := st.migrationsStarted ++ [(sid, st.nextPromiseId)] } sid
  refine ⟨e, db, ?_⟩
  unfold migrateSiteSchemasRun
  rw [hcall]
  show (let r := migrationBody env _ sid
        (r.1, migrationSettle r.2 sid r.1)) = _
  rw [hbody]
  show (e, migrationSettle _ sid e) = _
  unfold migrationSettle CoreSitesState.setDB
  have hfilter : List.filter (fun ee => ee.1 != sid) [(sid, st.nextPromiseId)] = [] := by
    simp
  simp only [hfilter]

theorem addIdOnce_mem (ids : List String) (i s : String)
    (h : s ∈ addIdOnce ids i) : s ∈ ids ∨ s = i := by
  unfold addIdOnce at h
  by_cases hm : i ∈ ids
  · rw [if_pos hm] at h
    exact Or.inl h
  · rw [if_neg hm] at h
    rcases List.mem_append.mp h with h | h
    · exact Or.inl h
    · exact Or.inr (List.mem_singleton.mp h)

theorem makeSiteFromSiteListEntry_props (env : SiteEnv) (st : CoreSitesState)
    (entryId : String) (h : st.siteSchemasMigration = []) (hinv : migratedInv st) :
    migratedInv (makeSiteFromSiteListEntry env st entryId).2
    ∧ (makeSiteFromSiteListEntry env st entryId).2.siteSchemasMigration = []
    ∧ (makeSiteFromSiteListEntry env st entryId).2.currentSite = st.currentSite
    ∧ (makeSiteFromSiteListEntry env st entryId).2.appSitesTable = st.appSitesTable
    ∧ st.migrated ⊆ (makeSiteFromSiteListEntry env st entryId).2.migrated
    ∧ ((makeSiteFromSiteListEntry env st entryId).1 = none →
        entryId ∈ (makeSiteFromSiteListEntry env st entryId).2.migrated) := by
  obtain ⟨e, db, hrun⟩ := migrateSiteSchemasRun_parts env st entryId h
  unfold makeSiteFromSiteListEntry
  rw [hrun]
  cases e with
  | some err =>
    refine ⟨⟨fun s hs => hinv.1 s hs, fun c hc => hinv.2 c hc⟩,
      rfl, rfl, rfl, fun x hx => hx, fun hfalse => absurd hfalse (by simp)⟩
  | none =>
    refine ⟨⟨?_, ?_⟩, rfl, rfl, rfl, ?_, ?_⟩
    · intro s hs
      show s ∈ st.migrated ++ [entryId]
      rcases addIdOnce_mem st.sites entryId s hs with hmem | heq
      · exact List.mem_append.mpr (Or.inl (hinv.1 s hmem))
      · exact List.mem_append.mpr (Or.inr (by simp [heq]))
    · intro c hc
      show c ∈ st.migrated ++ [entryId]
      exact List.mem_append.mpr (Or.inl (hinv.2 c hc))
    · intro x hx
      show x ∈ st.migrated ++ [entryId]
      exact List.mem_append.mpr (Or.inl hx)
    · intro _
      show entryId ∈ st.migrated ++ [entryId]
      exact List.mem_append.mpr (Or.inr (by simp))

theorem getSite_props (env : SiteEnv) (st : CoreSitesState) (sid : String)
    (h : st.siteSchemasMigration = []) (hinv : migratedInv st) :
    migratedInv (getSite env st (some sid)).2.1
    ∧ (getSite env st (some sid)).2.1.siteSchemasMigration = []
    ∧ (getSite env st (some sid)).2.1.currentSite = st.currentSite
    ∧ (getSite env st (some sid)).2.1.appSitesTable = st.appSitesTable
    ∧ st.migrated ⊆ (getSite env st (some sid)).2.1.migrated
    ∧ ((getSite env st (some sid)).1 = none →
        sid ∈ (getSite env st (some sid)).2.1.migrated) := by
  simp only [getSite]
  by_cases hc : st.currentSite = some sid
  · rw [if_pos hc]
    exact ⟨hinv, h, rfl, rfl, fun x hx => hx, fun _ => hinv.2 sid hc⟩
  · rw [if_neg hc]
    by_cases hm : sid ∈ st.sites
    · rw [if_pos hm]
      exact ⟨hinv, h, rfl, rfl, fun x hx => hx, fun _ => hinv.1 sid hm⟩
    · rw [if_neg hm]
      by_cases ha : sid ∈ ({ st with appSitesReads := st.appSitesReads + 1 }
          : CoreSitesState).appSitesTable
      · rw [if_pos ha]
        obtain ⟨ge, st2, hmk⟩ : ∃ ge st2,
            makeSiteFromSiteListEntry env
              { st with appSitesReads := st.appSitesReads + 1 } sid = (ge, st2) :=
          ⟨_, _, rfl⟩
        obtain ⟨p1, p2, p3, p4, p5, p6⟩ := makeSiteFromSiteListEntry_props env
          { st with appSitesReads := st.appSitesReads + 1 } sid h hinv
        rw [hmk] at p1 p2 p3 p4 p5 p6
        rw [hmk]
        cases ge with
        | some err => exact ⟨p1, p2, p3, p4, p5, fun hfalse => absurd hfalse (by simp)⟩
        | none => exact ⟨p1, p2, p3, p4, p5, fun _ => p6 rfl⟩
      · rw [if_neg ha]
        exact ⟨hinv, h, rfl, rfl, fun x hx => hx, fun hfalse => absurd hfalse (by simp)⟩

theorem finishNewSite_migratedInv (e : NewSiteEnv) (st : CoreSitesState)
    (isNew login : Bool) (hinv : migratedInv st) (hmig : e.siteId ∈ st.migrated) :
    migratedInv (finishNewSite e st isNew login).2 := by
  unfold finishNewSite
  by_cases hg : (!e.getConfigOk && isNew) = true
  · rw [if_pos hg]; exact hinv
  · rw [if_neg hg]
    cases login with
    | false =>
      refine ⟨?_, ?_⟩
      · intro s hs
        rcases addIdOnce_mem _ _ _ hs with h | h
        · exact hinv.1 s h
        · exact h ▸ hmig
      · exact fun c hc => hinv.2 c hc
    | true =>
      refine ⟨?_, ?_⟩
      · intro s hs
        rcases addIdOnce_mem _ _ _ hs with h | h
        · exact hinv.1 s h
        · exact h ▸ hmig
      · intro c hc
        have hce : some e.siteId = some c := hc
        have : c = e.siteId := (Option.some.inj hce).symm
        exact this ▸ hmig

/-- C5: a site becomes reachable only after its schema migration has
completed.  Under the invariant that every site in the lookup-by-ID map
and the current site have completed migration, both newSite (site
creation after authentication, which migrates a new site before adding
it to the map or making it current, and propagates migration failure
without exposing the site) and makeSiteFromSiteListEntry (loading a
persisted site, which migrates before inserting into the map) preserve
the invariant, for any outcome of the external calls. -/
theorem site_exposed_only_after_migration (e : NewSiteEnv) (env : SiteEnv)
    (st : CoreSitesState) (login : Bool) (entryId : String)
    (hinv : migratedInv st) (hnoflight : st.siteSchemasMigration = []) :
    migratedInv (newSite e st login).2
    ∧ migratedInv (makeSiteFromSiteListEntry env st entryId).2 := by
  refine ⟨?_, (makeSiteFromSiteListEntry_props env st entryId hnoflight hinv).1⟩
  unfold newSite
  by_cases hf : (!e.fetchInfoOk) = true
  · rw [if_pos hf]; exact hinv
  · rw [if_neg hf]
    by_cases hv : (!e.validVersion) = true
    · rw [if_pos hv]; exact hinv
    · rw [if_neg hv]
      obtain ⟨gp1, gp2, gp3, gp4, gp5, gp6⟩ :=
        getSite_props e.env st e.siteId hnoflight hinv
      obtain ⟨ge, st1, found, hg⟩ : ∃ ge st1 found,
          getSite e.env st (some e.siteId) = (ge, st1, found) := ⟨_, _, _, rfl⟩
      rw [hg] at gp1 gp2 gp3 gp4 gp5 gp6 ⊢
      cases ge with
      | none =>
        exact finishNewSite_migratedInv e st1 false login gp1 (gp6 rfl)
      | some err =>
        obtain ⟨me, db, hrun⟩ := migrateSiteSchemasRun_parts e.env st1 e.siteId gp2
        cases me with
        | some err2 =>
          simp only [hrun]
          exact ⟨fun s hs => gp1.1 s hs, fun c hc => gp1.2 c hc⟩
        | none =>
          simp only [hrun]
          apply finishNewSite_migratedInv
          · exact ⟨fun s hs => List.mem_append.mpr (Or.inl (gp1.1 s hs)),
                   fun c hc => List.mem_append.mpr (Or.inl (gp1.2 c hc))⟩
          · exact List.mem_append.mpr (Or.inr (by simp))

/-- C5 witness fixture: oracle for a successful newSite run. -/
def c5env : NewSiteEnv := ⟨migEnvAllOk, true, true, "siteN", true⟩

theorem site_exposed_only_after_migration_witness :
    migratedInv (newSite c5env baseState true).2
    ∧ migratedInv (makeSiteFromSiteListEntry migEnvAllOk baseState "s1").2 :=
  site_exposed_only_after_migration c5env migEnvAllOk baseState true "s1"
    ⟨fun s hs => absurd hs (List.not_mem_nil s), fun c hc => Option.noConfusion hc⟩
    rfl
